import Mathlib

/-!
Shallow embedding of the motor-vibration RMS fault-diagnosis application
(`src/app.py`).  Timestamps are modelled as rational numbers of seconds,
numeric cells as rationals, and the floating-point square root as
`Real.sqrt`.  Pandas tables become lists of rows; pandas nulls become
`Option`.
-/

namespace MotorApp

/-- Consecutive differences of a list, as produced by `Series.diff()`
(the first, undefined entry is dropped, leaving `n - 1` values). -/
def diffs : List ℚ → List ℚ
  | a :: b :: rest => (b - a) :: diffs (b :: rest)
  | _ => []

/-- Pandas `Series.median()`: sort ascending; middle element for odd
length, mean of the two middle elements for even length; undefined
(`NaN`, modelled as `none`) for an empty series. -/
def median (l : List ℚ) : Option ℚ :=
  let s := l.insertionSort (· ≤ ·)
  if l.length = 0 then none
  else if l.length % 2 = 1 then some (s.getD (l.length / 2) 0)
  else some ((s.getD (l.length / 2 - 1) 0 + s.getD (l.length / 2) 0) / 2)

/-- `app.py` lines 106-108: `dt = df_use["t"].diff().dt.total_seconds().median()`
and `sr = 1 / dt if dt and dt > 0 else 0`.  A `NaN` median (fewer than two
samples) is truthy in Python but fails `dt > 0`, so every branch other than
a strictly positive median yields `0`. -/
def sampleRate (ts : List ℚ) : ℚ :=
  match median (diffs ts) with
  | none => 0
  | some m => if 0 < m then 1 / m else 0

/-- `app.py` line 27: `win = max(1, int(sample_rate * 60)) if sample_rate else 10`.
`int` truncates toward zero, which on the nonnegative rates produced by the
estimator is the floor. -/
def winLen (sr : ℚ) : ℕ :=
  if sr = 0 then 10 else max 1 (Int.toNat ⌊sr * 60⌋)

/-- One normalized row `{t, x, y, z}` (timestamp in seconds, three axis
values), `z` being the axial channel. -/
structure Sample where
  t : ℚ
  x : ℚ
  y : ℚ
  z : ℚ
  deriving DecidableEq, Repr

/-- The trailing window pandas `rolling(window=win, min_periods=1)` hands to
the row-`i` aggregation: the last `min win (i+1)` samples up to and
including row `i`. -/
def windowAt (xs : List ℚ) (win i : ℕ) : List ℚ :=
  (xs.take (i + 1)).drop (i + 1 - win)

/-- The aggregated quantity inside the rolling lambda, before the square
root: `np.mean(v ** 2)`. -/
def meanSq (w : List ℚ) : ℚ :=
  (w.map (fun v => v ^ 2)).sum / w.length

/-- The per-row mean of squares over the trailing window, for every row. -/
def rollingMeanSq (xs : List ℚ) (win : ℕ) : List ℚ :=
  (List.range xs.length).map (fun i => meanSq (windowAt xs win i))

/-- `app.py` lines 29-33: the rolling RMS column
`df[axis].rolling(window=win, min_periods=1).apply(lambda v: np.sqrt(np.mean(v ** 2)))`. -/
noncomputable def rollingRMS (xs : List ℚ) (win : ℕ) : List ℝ :=
  (rollingMeanSq xs win).map (fun m : ℚ => Real.sqrt (m : ℝ))

/-- `app.py` lines 35-42, the list `issues` built by `diag`: each of the
three threshold conditions is checked unconditionally, appending its label
in the fixed order radial, axial, looseness. -/
noncomputable def issuesOf (xr yr zr : ℝ) : List String :=
  (if xr > 0.5 ∨ yr > 0.5 then ["Radial High"] else []) ++
  (if zr > 0.35 then ["Axial High"] else []) ++
  (if |xr - yr| > 0.2 then ["Looseness"] else [])

/-- `", ".join(issues)`. -/
def joinComma (l : List String) : String :=
  String.intercalate ", " l

/-- `app.py` line 43: `return ", ".join(issues) if issues else None`. -/
noncomputable def diag (xr yr zr : ℝ) : Option String :=
  if issuesOf xr yr zr = [] then none else some (joinComma (issuesOf xr yr zr))

/-- The row-wise combination of `df.apply(diag, axis=1)` (line 45) with the
`notna` filter (line 46): keep `(t, diagnosis)` exactly for the rows whose
`diag` is non-null. -/
noncomputable def zipDiag : List ℚ → List ℝ → List ℝ → List ℝ → List (ℚ × String)
  | t :: ts, xr :: xrs, yr :: yrs, zr :: zrs =>
    match diag xr yr zr with
    | some s => (t, s) :: zipDiag ts xrs yrs zrs
    | none => zipDiag ts xrs yrs zrs
  | _, _, _, _ => []

/-- `app.py` lines 25-46, `diagnose_faults`: add the three rolling-RMS
columns, classify each row, and return the `(t, Diagnosis)` pairs of the
rows with a non-null diagnosis. -/
noncomputable def diagnose_faults (samples : List Sample) (sr : ℚ) : List (ℚ × String) :=
  let win := winLen sr
  zipDiag (samples.map Sample.t)
    (rollingRMS (samples.map Sample.x) win)
    (rollingRMS (samples.map Sample.y) win)
    (rollingRMS (samples.map Sample.z) win)

/-- A raw timestamp cell: `none` is a pandas null (dropped by the first
`dropna`); `some none` is a present but unparseable value (coerced to `NaT`
by `pd.to_datetime(..., errors="coerce")` and dropped afterwards);
`some (some q)` parses to the time `q` in seconds. -/
def TCell : Type := Option (Option ℚ)

/-- One raw spreadsheet row, holding the cells of the six expected columns
`t(x), x, t(y), y, t(z), z` (numeric cells are `none` when null). -/
structure RawRow where
  tx : TCell
  vx : Option ℚ
  ty : TCell
  vy : Option ℚ
  tz : TCell
  vz : Option ℚ

/-- A raw sheet: its column labels (arbitrary case) and its rows. -/
structure RawSheet where
  cols : List String
  rows : List RawRow

/-- Which column the user declared axial. -/
inductive Axis where
  | x
  | y
  | z
  deriving DecidableEq, Repr

/-- Python `str.lower()` on a column label, modelled character by
character. -/
def lowerStr (s : String) : String := String.mk (s.data.map Char.toLower)

/-- `app.py` line 94: `expected = ["t(x)", "x", "t(y)", "y", "t(z)", "z"]`. -/
def expectedCols : List String := ["t(x)", "x", "t(y)", "y", "t(z)", "z"]

/-- `app.py` lines 92-95: lower-case the column labels and require every
expected column to be present. -/
def schemaOk (s : RawSheet) : Bool :=
  expectedCols.all (fun c => (s.cols.map lowerStr).contains c)

/-- The timestamp cell and value cell of the axis `a` in a row
(`axis_map[axial_axis]`, line 98-99). -/
def axialCells (a : Axis) (r : RawRow) : TCell × Option ℚ :=
  match a with
  | Axis.x => (r.tx, r.vx)
  | Axis.y => (r.ty, r.vy)
  | Axis.z => (r.tz, r.vz)

/-- The value cells of the two radial axes, in the order of
`radials = [a for a in ["x", "y", "z"] if a != axial_axis]` (line 100). -/
def radialVals (a : Axis) (r : RawRow) : Option ℚ × Option ℚ :=
  match a with
  | Axis.x => (r.vy, r.vz)
  | Axis.y => (r.vx, r.vz)
  | Axis.z => (r.vx, r.vy)

/-- `app.py` line 101: select the axial timestamp column, the axial value
column and the two radial value columns, and drop the row if any selected
cell is null (`dropna()`).  The survivors carry the renamed fields of line
102 (`t, z, x, y`), the timestamp still raw. -/
def dropNullRow (a : Axis) (r : RawRow) : Option (Option ℚ × ℚ × ℚ × ℚ) :=
  match axialCells a r, radialVals a r with
  | (some p, some zv), (some xv, some yv) => some (p, zv, xv, yv)
  | _, _ => none

/-- `app.py` lines 103-104: parse the `t` column (`errors="coerce"`) and
drop the rows whose timestamp did not parse (`dropna(subset=["t"])`). -/
def parseRow : Option ℚ × ℚ × ℚ × ℚ → Option Sample
  | (some tq, zv, xv, yv) => some ⟨tq, xv, yv, zv⟩
  | (none, _, _, _) => none

/-- `sort_values("t")` (line 104): sort ascending by timestamp. -/
def sortByT (l : List Sample) : List Sample :=
  l.insertionSort (fun p q => p.t ≤ q.t)

/-- The full per-row effect of lines 101-104 on one raw row: `none` when
the row is dropped, otherwise the normalized sample. -/
def rowToSample (a : Axis) (r : RawRow) : Option Sample :=
  (dropNullRow a r).bind parseRow

/-- `app.py` lines 90-109, `prepare_sheet`: validate the schema (returning
`None` on a missing column), select/drop/parse/sort the rows, and estimate
the sample rate from the sorted timestamps. -/
def prepare_sheet (s : RawSheet) (a : Axis) : Option (List Sample × ℚ) :=
  if schemaOk s then
    let rows1 := s.rows.filterMap (dropNullRow a)
    let rows2 := rows1.filterMap parseRow
    let out := sortByT rows2
    some (out, sampleRate (out.map Sample.t))
  else none

/-- `df_use.sort_values("t").tail(max_rows)` (lines 142 and 206): the
most-recent-`n`-rows cap. -/
def capRows (l : List Sample) (n : ℕ) : List Sample :=
  let s := sortByT l
  s.drop (s.length - n)

/-- `app.py` lines 133-151, the all-sheets loop: prepare each sheet
(skipping invalid ones), cap to the most recent `maxRows` rows, diagnose,
and record an entry only for sheets with a nonempty fault list. -/
noncomputable def runBatch : List (String × RawSheet) → ℕ → List (String × List (ℚ × String))
  | [], _ => []
  | e :: rest, m =>
    match prepare_sheet e.2 Axis.z with
    | none => runBatch rest m
    | some (dfu, sr) =>
      let faults := diagnose_faults (capRows dfu m) sr
      if faults.isEmpty then runBatch rest m else (e.1, faults) :: runBatch rest m

/-- Modelled from the spec: the repository's FFT-based spectral path is not
among the provided source files, so the mean used for DC removal is taken
from the spec's words ("remove the DC component (subtract the mean)"). -/
noncomputable def meanR (xs : List ℝ) : ℝ := xs.sum / xs.length

/-- Modelled from the spec: DC removal before the transform. -/
noncomputable def detrend (xs : List ℝ) : List ℝ := xs.map (fun v => v - meanR xs)

/-- Modelled from the spec: bin `k` of the discrete Fourier transform of a
real signal, `X_k = Σ_n x_n · exp(-2πi·k·n/N)`. -/
noncomputable def dftBin (xs : List ℝ) (k : ℕ) : ℂ :=
  ∑ n ∈ Finset.range xs.length,
    (xs.getD n 0 : ℂ) * Complex.exp (-(2 * Real.pi * Complex.I) * k * n / xs.length)

/-- Modelled from the spec: the one-sided magnitude spectrum — magnitudes of
the first `⌈N/2⌉` bins of the DFT of the mean-removed signal, scaled by
`2/N`.  The corresponding frequency of bin `k` is `k · sample_rate / N`. -/
noncomputable def spectrumOf (xs : List ℝ) : List ℝ :=
  (List.range ((xs.length + 1) / 2)).map
    (fun k => 2 / xs.length * Complex.abs (dftBin (detrend xs) k))

/-- First index of the maximum, ties broken toward the earlier bin
(`np.argmax` semantics); helper carrying the running best. -/
noncomputable def argmaxAux : List ℝ → ℕ → ℕ → ℝ → ℕ
  | [], _, bi, _ => bi
  | v :: rest, i, bi, bv =>
    if bv < v then argmaxAux rest (i + 1) i v else argmaxAux rest (i + 1) bi bv

/-- Modelled from the spec: "Identify the single bin with maximum magnitude
as the dominant peak". -/
noncomputable def argmaxIdx : List ℝ → ℕ
  | [] => 0
  | v :: rest => argmaxAux rest 1 0 v

/-- Modelled from the spec: the dominant peak `(frequency, amplitude)` of
one axis, at frequency resolution `sample_rate / N`. -/
noncomputable def spectralPeak (xs : List ℝ) (sr : ℝ) : ℝ × ℝ :=
  let mags := spectrumOf xs
  let k := argmaxIdx mags
  (k * sr / xs.length, mags.getD k 0)

/-- Modelled from the spec: the ordered, first-match-wins classification of
the dominant peak against multiples of the shaft frequency `RPM/60`. -/
noncomputable def classify (pf amp rpm : ℝ) : String :=
  let peakRPM := pf * 60
  if |peakRPM - rpm| < 5 then "Likely Unbalance"
  else if |peakRPM - 2 * rpm| < 5 then "Possible Misalignment"
  else if pf > 500 then "Possible Bearing Fault"
  else if 0 < pf ∧ pf < 10 ∧ amp > 0.1 then "Possible Looseness"
  else "No dominant fault detected"

/-- Modelled from the spec: one axis of the spectral path — dominant peak
extraction followed by classification. -/
noncomputable def spectralDiag (xs : List ℝ) (sr rpm : ℝ) : ℝ × String :=
  let p := spectralPeak xs sr
  (p.1, classify p.1 p.2 rpm)

/-! ### Helper lemmas -/

/-- `getD` with default `0` of a list all of whose elements are `0` is `0`,
whether or not the index is in range. -/
theorem getD_zero_of_all_zero : ∀ (l : List ℚ) (i : ℕ), (∀ x ∈ l, x = 0) → l.getD i 0 = 0
  | [], _, _ => rfl
  | a :: _, 0, h => h a (List.mem_cons_self a _)
  | _ :: l, i + 1, h =>
    getD_zero_of_all_zero l i (fun x hx => h x (List.mem_cons_of_mem _ hx))

/-- The median of a list of zeros is undefined or zero. -/
theorem median_all_zero (l : List ℚ) (h : ∀ x ∈ l, x = 0) :
    median l = none ∨ median l = some 0 := by
  have hs : ∀ x ∈ l.insertionSort (· ≤ ·), x = 0 := by
    intro x hx
    exact h x ((List.mem_insertionSort (· ≤ ·)).1 hx)
  simp only [median]
  by_cases h0 : l.length = 0
  · left
    rw [if_pos h0]
  · right
    rw [if_neg h0]
    by_cases h1 : l.length % 2 = 1
    · rw [if_pos h1, getD_zero_of_all_zero _ _ hs]
    · rw [if_neg h1, getD_zero_of_all_zero _ _ hs, getD_zero_of_all_zero _ _ hs]
      norm_num

/-- Every consecutive difference of an all-equal list is zero. -/
theorem diffs_all_zero (c : ℚ) : ∀ (l : List ℚ), (∀ x ∈ l, x = c) → ∀ d ∈ diffs l, d = 0
  | [], _, d, hd => by simp [diffs] at hd
  | [_], _, d, hd => by simp [diffs] at hd
  | a :: b :: l, h, d, hd => by
    rw [diffs] at hd
    rcases List.mem_cons.1 hd with h1 | h1
    · have ha : a = c := h a (List.mem_cons_self _ _)
      have hb : b = c := h b (List.mem_cons_of_mem _ (List.mem_cons_self _ _))
      rw [h1, ha, hb, sub_self]
    · exact diffs_all_zero c (b :: l) (fun x hx => h x (List.mem_cons_of_mem _ hx)) d h1

/-! ### C1 — Sample-Rate Estimator -/

/-- C1: for every normalized timestamp sequence the estimator returns
`1 / median(diffs)` when that median exists and is strictly positive and
`0` otherwise, in particular for fewer than 2 samples and for all-identical
timestamps (no exception is possible: the function is total). -/
theorem C1_sampleRate_spec (ts : List ℚ) :
    (∀ m, median (diffs ts) = some m → sampleRate ts = if 0 < m then 1 / m else 0)
    ∧ (median (diffs ts) = none → sampleRate ts = 0)
    ∧ (ts.length < 2 → sampleRate ts = 0)
    ∧ (∀ c, (∀ x ∈ ts, x = c) → sampleRate ts = 0) := by
  refine ⟨fun m hm => by rw [sampleRate, hm], fun hm => by rw [sampleRate, hm], ?_, ?_⟩
  · intro hlen
    have hd : diffs ts = [] := by
      match ts, hlen with
      | [], _ => rfl
      | [_], _ => rfl
    rw [sampleRate, hd]
    rfl
  · intro c hc
    have hz := diffs_all_zero c ts hc
    rcases median_all_zero (diffs ts) hz with h | h <;> rw [sampleRate, h]
    simp

/-- Witness for C1 at the concrete timestamp list `[0, 1, 2]`. -/
theorem C1_witness :
    median (diffs [0, 1, 2]) = some 1 ∧
      sampleRate [0, 1, 2] = if (0 : ℚ) < 1 then 1 / 1 else 0 :=
  ⟨by norm_num [median, diffs],
   (C1_sampleRate_spec [0, 1, 2]).1 1 (by norm_num [median, diffs])⟩

/-! ### C3 — rolling-RMS window length -/

/-- C3 counterexample: at the sentinel rate `0` the code uses the fallback
window `10`, not `max(1, floor(0 * 60)) = 1` as the claim states. -/
theorem C3_counterexample :
    winLen 0 = 10 ∧ winLen 0 ≠ max 1 (Int.toNat ⌊(0 : ℚ) * 60⌋) := by
  norm_num [winLen]

/-- C3 (amended): for every nonzero sample rate the window length is
`max(1, floor(rate * 60))`; for the sentinel rate `0` it is the fallback
constant `10`; and the rate reaches `diagnose_faults` only through that
window length (it is never used as a divisor). -/
theorem C3_winLen_spec :
    (∀ sr : ℚ, sr ≠ 0 → winLen sr = max 1 (Int.toNat ⌊sr * 60⌋))
    ∧ winLen 0 = 10
    ∧ (∀ samples sr sr', winLen sr = winLen sr' →
        diagnose_faults samples sr = diagnose_faults samples sr') := by
  refine ⟨fun sr h => by rw [winLen, if_neg h], by rw [winLen, if_pos rfl], ?_⟩
  intro samples sr sr' h
  simp only [diagnose_faults, h]

/-- Witness for C3 at the concrete rate `2` Hz. -/
theorem C3_witness : winLen 2 = max 1 (Int.toNat ⌊(2 : ℚ) * 60⌋) :=
  C3_winLen_spec.1 2 (by norm_num)

/-! ### C2 — Threshold Classifier -/

/-- C2: the three threshold conditions are evaluated independently with
strict inequalities ("Radial High" iff `x_rms > 0.5` or `y_rms > 0.5`,
"Axial High" iff `z_rms > 0.35`, "Looseness" iff `|x_rms − y_rms| > 0.2`),
the triggered labels are joined in the fixed order radial, axial,
looseness, the row `(0.6, 0.1, 0.1)` yields exactly "Radial High,
Looseness", and a row with every statistic at its threshold triggers
nothing. -/
theorem C2_diag_spec :
    (∀ xr yr zr : ℝ,
      ("Radial High" ∈ issuesOf xr yr zr ↔ xr > 0.5 ∨ yr > 0.5)
      ∧ ("Axial High" ∈ issuesOf xr yr zr ↔ zr > 0.35)
      ∧ ("Looseness" ∈ issuesOf xr yr zr ↔ |xr - yr| > 0.2)
      ∧ List.Sublist (issuesOf xr yr zr) ["Radial High", "Axial High", "Looseness"]
      ∧ diag xr yr zr =
          (if issuesOf xr yr zr = [] then none else some (joinComma (issuesOf xr yr zr))))
    ∧ diag 0.6 0.1 0.1 = some "Radial High, Looseness"
    ∧ diag 0.5 0.5 0.35 = none := by
  have hRA : ("Radial High" : String) ≠ "Axial High" := by decide
  have hRL : ("Radial High" : String) ≠ "Looseness" := by decide
  have hAR : ("Axial High" : String) ≠ "Radial High" := by decide
  have hAL : ("Axial High" : String) ≠ "Looseness" := by decide
  have hLR : ("Looseness" : String) ≠ "Radial High" := by decide
  have hLA : ("Looseness" : String) ≠ "Axial High" := by decide
  refine ⟨fun xr yr zr => ?_, ?_, ?_⟩
  · refine ⟨?_, ?_, ?_, ?_, rfl⟩ <;>
      (unfold issuesOf;
       split_ifs <;>
       first
       | decide
       | simp_all [hRA, hRL, hAR, hAL, hLR, hLA])
  · have h1 : (0.6 : ℝ) > 0.5 ∨ (0.1 : ℝ) > 0.5 := by norm_num
    have h2 : ¬ ((0.1 : ℝ) > 0.35) := by norm_num
    have h3 : |(0.6 : ℝ) - 0.1| > 0.2 := by
      rw [show |(0.6 : ℝ) - 0.1| = 0.5 by rw [abs_of_pos] <;> norm_num]
      norm_num
    rw [diag, issuesOf, if_pos h1, if_neg h2, if_pos h3]
    rfl
  · have h1 : ¬ ((0.5 : ℝ) > 0.5 ∨ (0.5 : ℝ) > 0.5) := by norm_num
    have h2 : ¬ ((0.35 : ℝ) > 0.35) := by norm_num
    have h3 : ¬ (|(0.5 : ℝ) - 0.5| > 0.2) := by
      rw [sub_self, abs_zero]
      norm_num
    rw [diag, issuesOf, if_neg h1, if_neg h2, if_neg h3]
    rfl

/-! ### C4 — no "Normal" sentinel, no-issue rows omitted -/

/-- Every pair in the output of `zipDiag` carries a string produced by a
non-null `diag`. -/
theorem zipDiag_mem : ∀ (ts : List ℚ) (xs ys zs : List ℝ) (p : ℚ × String),
    p ∈ zipDiag ts xs ys zs → ∃ xr yr zr, diag xr yr zr = some p.2
  | t :: ts, xr :: xs, yr :: ys, zr :: zs, p, hp => by
    rcases hd : diag xr yr zr with _ | s
    · simp only [zipDiag, hd] at hp
      exact zipDiag_mem ts xs ys zs p hp
    · simp only [zipDiag, hd] at hp
      rcases List.mem_cons.1 hp with h | h
      · exact ⟨xr, yr, zr, by rw [hd, h]⟩
      · exact zipDiag_mem ts xs ys zs p h
  | [], _, _, _, p, hp => by simp [zipDiag] at hp
  | _ :: _, [], _, _, p, hp => by simp [zipDiag] at hp
  | _ :: _, _ :: _, [], _, p, hp => by simp [zipDiag] at hp
  | _ :: _, _ :: _, _ :: _, [], p, hp => by simp [zipDiag] at hp

/-- A non-null diagnosis string is one of the seven joined label
combinations; none of them is "Normal" or empty. -/
theorem diag_ne_normal (xr yr zr : ℝ) (s : String) (h : diag xr yr zr = some s) :
    s ≠ "Normal" ∧ s ≠ "" := by
  rw [diag] at h
  by_cases he : issuesOf xr yr zr = []
  · rw [if_pos he] at h
    cases h
  · rw [if_neg he] at h
    have hs : s = joinComma (issuesOf xr yr zr) := (Option.some.inj h).symm
    unfold issuesOf at he hs
    split_ifs at he hs <;> first | exact absurd rfl he | (subst hs; exact ⟨by decide, by decide⟩)

/-- `diag` at an all-zero statistics row is null. -/
theorem diag_zero_eq_none : diag 0 0 0 = none := by
  have h1 : ¬ ((0 : ℝ) > 0.5 ∨ (0 : ℝ) > 0.5) := by norm_num
  have h2 : ¬ ((0 : ℝ) > 0.35) := by norm_num
  have h3 : ¬ (|(0 : ℝ) - 0| > 0.2) := by
    rw [sub_self, abs_zero]
    norm_num
  have hiss : issuesOf (0 : ℝ) 0 0 = [] := by
    rw [issuesOf, if_neg h1, if_neg h2, if_neg h3]
    rfl
  rw [diag, hiss, if_pos rfl]

/-- C4 counterexample: a single all-zero row triggers nothing, and the
returned result is empty — the row is silently omitted rather than
represented by a "Normal" sentinel. -/
theorem C4_counterexample : diagnose_faults [⟨0, 0, 0, 0⟩] 1 = [] := by
  have hmsq : rollingMeanSq [0] (winLen 1) = [0] := by
    norm_num [rollingMeanSq, meanSq, windowAt, winLen, List.range_succ]
  have hroll : rollingRMS [0] (winLen 1) = [0] := by
    rw [rollingRMS, hmsq]
    simp
  simp only [diagnose_faults, List.map_cons, List.map_nil]
  rw [hroll]
  simp only [zipDiag, diag_zero_eq_none]

/-- C4 (amended): a classified row in which no threshold condition triggers
receives a null diagnosis and is omitted from the returned result; the
result never contains the label "Normal" (nor an empty label). -/
theorem C4_no_normal (samples : List Sample) (sr : ℚ) :
    (∀ xr yr zr : ℝ, issuesOf xr yr zr = [] → diag xr yr zr = none)
    ∧ (∀ p ∈ diagnose_faults samples sr, p.2 ≠ "Normal" ∧ p.2 ≠ "") := by
  constructor
  · intro xr yr zr h
    rw [diag, if_pos h]
  · intro p hp
    simp only [diagnose_faults] at hp
    obtain ⟨xr, yr, zr, hd⟩ := zipDiag_mem _ _ _ _ p hp
    exact diag_ne_normal xr yr zr p.2 hd

/-- Witness for C4 at the all-zero statistics row. -/
theorem C4_witness : issuesOf 0 0 0 = [] ∧ diag 0 0 0 = none := by
  have hiss : issuesOf (0 : ℝ) 0 0 = [] := by
    have h3 : ¬ (|(0 : ℝ) - 0| > 0.2) := by
      rw [sub_self, abs_zero]
      norm_num
    rw [issuesOf]
    rw [if_neg (by norm_num), if_neg (by norm_num), if_neg h3]
    rfl
  exact ⟨hiss, (C4_no_normal [] 0).1 0 0 0 hiss⟩

/-! ### C6 — rolling RMS algebra -/

/-- Mean of squares of a constant window of positive length. -/
theorem meanSq_replicate (m : ℕ) (v : ℚ) (hm : m ≠ 0) :
    meanSq (List.replicate m v) = v ^ 2 := by
  have hm' : (m : ℚ) ≠ 0 := Nat.cast_ne_zero.2 hm
  rw [meanSq, List.map_replicate, List.sum_replicate, List.length_replicate, nsmul_eq_mul,
    mul_div_cancel_left₀ _ hm']

/-- Mean of squares of a single sample. -/
theorem meanSq_singleton (a : ℚ) : meanSq [a] = a ^ 2 := by
  simp [meanSq]

/-- C6: the rolling RMS of a constant signal `v` over any window length
`≥ 1` is `|v|` at every row; with window length `1` it is `|x|` at every
row; and every row yields a defined value (`min_periods=1`), so the output
has the same length as the input. -/
theorem C6_rms_spec :
    (∀ (n : ℕ) (v : ℚ) (win : ℕ), 1 ≤ win →
      rollingRMS (List.replicate n v) win = List.replicate n |(v : ℝ)|)
    ∧ (∀ xs : List ℚ, rollingRMS xs 1 = xs.map (fun x : ℚ => |(x : ℝ)|))
    ∧ (∀ xs win, (rollingRMS xs win).length = xs.length) := by
  refine ⟨?_, ?_, ?_⟩
  · intro n v win hwin
    have hmsq : rollingMeanSq (List.replicate n v) win = List.replicate n (v ^ 2) := by
      apply List.ext_getElem
      · simp [rollingMeanSq]
      · intro i h1 h2
        simp only [rollingMeanSq, List.length_map, List.length_range,
          List.length_replicate] at h1
        simp only [rollingMeanSq, List.getElem_map, List.getElem_range, List.getElem_replicate]
        rw [windowAt, List.take_replicate, List.drop_replicate]
        have hmin : min (i + 1) n = i + 1 := by omega
        rw [hmin]
        exact meanSq_replicate _ _ (by omega)
    rw [rollingRMS, hmsq, List.map_replicate]
    congr 1
    push_cast
    exact Real.sqrt_sq_eq_abs (v : ℝ)
  · intro xs
    apply List.ext_getElem
    · simp [rollingRMS, rollingMeanSq]
    · intro i h1 h2
      simp only [rollingRMS, rollingMeanSq, List.length_map, List.length_range] at h1
      simp only [rollingRMS, rollingMeanSq, List.getElem_map, List.getElem_range]
      have hw : windowAt xs 1 i = [xs[i]] := by
        rw [windowAt, Nat.add_sub_cancel, List.drop_take, List.drop_eq_getElem_cons h1,
          show i + 1 - i = 1 by omega]
        rfl
      rw [hw, meanSq_singleton]
      push_cast
      exact Real.sqrt_sq_eq_abs _
  · intro xs win
    simp [rollingRMS, rollingMeanSq]

/-- Witness for C6 at the one-element constant signal `[2]`, window 1. -/
theorem C6_witness :
    1 ≤ 1 ∧ rollingRMS (List.replicate 1 2) 1 = List.replicate 1 |((2 : ℚ) : ℝ)| :=
  ⟨le_refl 1, C6_rms_spec.1 1 2 1 (le_refl 1)⟩

/-! ### C7 — most-recent-N-rows cap -/

/-- `sort_values("t")` produces a list sorted ascending by timestamp. -/
theorem sortByT_sorted (l : List Sample) :
    (sortByT l).Sorted (fun p q : Sample => p.t ≤ q.t) := by
  haveI : IsTotal Sample (fun p q : Sample => p.t ≤ q.t) := ⟨fun a b => le_total a.t b.t⟩
  haveI : IsTrans Sample (fun p q : Sample => p.t ≤ q.t) :=
    ⟨fun _ _ _ h h' => le_trans h h'⟩
  exact List.sorted_insertionSort _ l

/-- Sorting permutes and in particular preserves length. -/
theorem sortByT_perm (l : List Sample) : (sortByT l).Perm l :=
  List.perm_insertionSort _ l

theorem sortByT_length (l : List Sample) : (sortByT l).length = l.length :=
  (sortByT_perm l).length_eq

/-- Sorting an already-sorted list is the identity. -/
theorem sortByT_eq_self {l : List Sample}
    (h : l.Sorted (fun p q : Sample => p.t ≤ q.t)) : sortByT l = l :=
  List.Sorted.insertionSort_eq h

/-- C7: capping a sheet of `M` rows to the most recent `n < M` rows yields
exactly `n` rows, sorted ascending by timestamp, forming a suffix (tail) of
the full sorted sequence (for an already-sorted sheet, literally
`drop (M − n)`); and in the batch pipeline the cap is applied to the
prepared rows before `diagnose_faults` computes the rolling statistic. -/
theorem C7_cap_spec (l : List Sample) (n : ℕ) (h : n < l.length) :
    (capRows l n).length = n
    ∧ (capRows l n).Sorted (fun p q : Sample => p.t ≤ q.t)
    ∧ (capRows l n).IsSuffix (sortByT l)
    ∧ (l.Sorted (fun p q : Sample => p.t ≤ q.t) → capRows l n = l.drop (l.length - n))
    ∧ (∀ (nm : String) (s : RawSheet) rest m dfu sr,
        prepare_sheet s Axis.z = some (dfu, sr) →
        runBatch ((nm, s) :: rest) m =
          (if (diagnose_faults (capRows dfu m) sr).isEmpty then runBatch rest m
           else (nm, diagnose_faults (capRows dfu m) sr) :: runBatch rest m)) := by
  refine ⟨?_, ?_, ?_, ?_, ?_⟩
  · simp only [capRows]
    rw [List.length_drop, sortByT_length]
    omega
  · simp only [capRows]
    exact List.Pairwise.sublist (List.drop_sublist _ _) (sortByT_sorted l)
  · simp only [capRows]
    exact List.drop_suffix _ _
  · intro hs
    simp only [capRows]
    rw [sortByT_eq_self hs]
  · intro nm s rest m dfu sr hp
    simp only [runBatch, hp]

/-- Witness for C7 at a concrete two-row sheet with cap 1. -/
theorem C7_witness :
    (1 : ℕ) < ([⟨0, 0, 0, 0⟩, ⟨1, 0, 0, 0⟩] : List Sample).length ∧
      (capRows [⟨0, 0, 0, 0⟩, ⟨1, 0, 0, 0⟩] 1).length = 1 :=
  ⟨by decide, (C7_cap_spec [⟨0, 0, 0, 0⟩, ⟨1, 0, 0, 0⟩] 1 (by decide)).1⟩

/-! ### C8 — Axis Normalizer -/

/-- A surviving row maps the axial timestamp to `t`, the axial value to
`z`, and the two radial values (in radial order) to `x` and `y`. -/
theorem rowToSample_some (a : Axis) (r : RawRow) (smp : Sample)
    (h : rowToSample a r = some smp) :
    (axialCells a r).1 = some (some smp.t) ∧ (axialCells a r).2 = some smp.z
    ∧ (radialVals a r).1 = some smp.x ∧ (radialVals a r).2 = some smp.y := by
  rcases hA : axialCells a r with ⟨tc, av⟩
  rcases hR : radialVals a r with ⟨r1, r2⟩
  rw [rowToSample, dropNullRow, hA, hR] at h
  rcases tc with _ | tc
  · simp at h
  rcases av with _ | zv
  · simp at h
  rcases r1 with _ | xv
  · simp at h
  rcases r2 with _ | yv
  · simp at h
  rcases tc with _ | tq
  · simp [parseRow] at h
  · simp only [Option.some_bind, parseRow] at h
    have hs : Sample.mk tq xv yv zv = smp := Option.some.inj h
    subst hs
    simp

/-- A row is dropped exactly when a selected cell is null or the axial
timestamp fails to parse. -/
theorem rowToSample_none_iff (a : Axis) (r : RawRow) :
    rowToSample a r = none ↔
      ((axialCells a r).1 = none ∨ (axialCells a r).2 = none
       ∨ (radialVals a r).1 = none ∨ (radialVals a r).2 = none
       ∨ (axialCells a r).1 = some none) := by
  rcases hA : axialCells a r with ⟨tc, av⟩
  rcases hR : radialVals a r with ⟨r1, r2⟩
  rw [rowToSample, dropNullRow, hA, hR]
  rcases tc with _ | (_ | tq) <;> rcases av with _ | zv <;>
    rcases r1 with _ | xv <;> rcases r2 with _ | yv <;> simp [parseRow]
  exact fun hcon => Option.noConfusion (Option.some.inj hcon)

/-- C8: a successful `prepare_sheet` yields rows sorted ascending by
timestamp that are a permutation of the per-row select/drop/parse results;
each surviving row stores the axial timestamp under `t` and the axial
value under `z` (a pure relabeling) with the radial values under `x`, `y`;
rows are dropped exactly for a null selected cell or an unparseable axial
timestamp; and the returned rate is the estimate over the sorted output
timestamps. -/
theorem C8_prepare_spec (s : RawSheet) (a : Axis) (out : List Sample) (sr : ℚ)
    (h : prepare_sheet s a = some (out, sr)) :
    out.Sorted (fun p q : Sample => p.t ≤ q.t)
    ∧ out.Perm (s.rows.filterMap (rowToSample a))
    ∧ (∀ r smp, rowToSample a r = some smp →
        (axialCells a r).1 = some (some smp.t) ∧ (axialCells a r).2 = some smp.z
        ∧ (radialVals a r).1 = some smp.x ∧ (radialVals a r).2 = some smp.y)
    ∧ (∀ r, rowToSample a r = none ↔
        ((axialCells a r).1 = none ∨ (axialCells a r).2 = none
         ∨ (radialVals a r).1 = none ∨ (radialVals a r).2 = none
         ∨ (axialCells a r).1 = some none))
    ∧ sr = sampleRate (out.map Sample.t) := by
  simp only [prepare_sheet] at h
  by_cases hok : schemaOk s = true
  · rw [if_pos hok] at h
    have hpair := Option.some.inj h
    have ho : sortByT ((s.rows.filterMap (dropNullRow a)).filterMap parseRow) = out :=
      congrArg Prod.fst hpair
    have hsr : sampleRate ((sortByT
        ((s.rows.filterMap (dropNullRow a)).filterMap parseRow)).map Sample.t) = sr :=
      congrArg Prod.snd hpair
    refine ⟨?_, ?_, fun r smp => rowToSample_some a r smp,
      fun r => rowToSample_none_iff a r, ?_⟩
    · rw [← ho]
      exact sortByT_sorted _
    · rw [← ho, List.filterMap_filterMap]
      exact sortByT_perm _
    · rw [← hsr, ho]
  · rw [if_neg hok] at h
    cases h

/-- A one-row fully-populated sheet used as a concrete test fixture. -/
def wSheet : RawSheet :=
  { cols := ["t(x)", "x", "t(y)", "y", "t(z)", "z"],
    rows := [⟨some (some 0), some 1, some (some 2), some 3, some (some 4), some 5⟩] }

theorem wSheet_prep : prepare_sheet wSheet Axis.z = some ([⟨4, 1, 3, 5⟩], 0) := by
  simp only [prepare_sheet, show schemaOk wSheet = true from by decide, if_true]
  norm_num [wSheet, sortByT, dropNullRow, parseRow, axialCells, radialVals,
    sampleRate, median, diffs]

/-- Witness for C8 at the one-row fixture (axial axis `z`). -/
theorem C8_witness :
    prepare_sheet wSheet Axis.z = some ([⟨4, 1, 3, 5⟩], 0) ∧
      ([(⟨4, 1, 3, 5⟩ : Sample)] : List Sample).Sorted (fun p q : Sample => p.t ≤ q.t) :=
  ⟨wSheet_prep, (C8_prepare_spec wSheet Axis.z [⟨4, 1, 3, 5⟩] 0 wSheet_prep).1⟩

/-! ### C10 — radial timestamp columns are never read -/

/-- Overwrite the two radial (non-axial) timestamp cells of a row with
arbitrary new cells. -/
def setRadialT (a : Axis) (f g : RawRow → TCell) (r : RawRow) : RawRow :=
  match a with
  | Axis.x => { r with ty := f r, tz := g r }
  | Axis.y => { r with tx := f r, tz := g r }
  | Axis.z => { r with tx := f r, ty := g r }

/-- The row pipeline reads neither radial timestamp cell. -/
theorem dropNullRow_setRadialT (a : Axis) (f g : RawRow → TCell) (r : RawRow) :
    dropNullRow a (setRadialT a f g r) = dropNullRow a r := by
  cases a <;> rfl

/-- C10: replacing the radial timestamp cells of every row by arbitrary
values leaves `prepare_sheet` unchanged — those columns are checked for
presence but never read; and the absence of any expected column (the radial
timestamp columns included) makes the schema check fail. -/
theorem C10_radial_ts_unread (s : RawSheet) (a : Axis) (f g : RawRow → TCell) :
    prepare_sheet ⟨s.cols, s.rows.map (setRadialT a f g)⟩ a = prepare_sheet s a
    ∧ (∀ c ∈ expectedCols, ¬ ((s.cols.map lowerStr).contains c = true) →
        prepare_sheet s a = none) := by
  constructor
  · simp only [prepare_sheet]
    have hok : schemaOk ⟨s.cols, s.rows.map (setRadialT a f g)⟩ = schemaOk s := rfl
    rw [hok]
    by_cases h : schemaOk s = true
    · rw [if_pos h, if_pos h, List.filterMap_map,
        show dropNullRow a ∘ setRadialT a f g = dropNullRow a from
          funext (dropNullRow_setRadialT a f g)]
    · rw [if_neg h, if_neg h]
  · intro c hc hnc
    rw [prepare_sheet, if_neg]
    intro hall
    exact hnc (List.all_eq_true.1 hall c hc)

/-- A sheet whose `t(x)` column is absent, used as a concrete fixture. -/
def mSheet : RawSheet := { cols := ["x", "t(y)", "y", "t(z)", "z"], rows := [] }

/-- Witness for C10: the fixture with the missing `t(x)` column is
rejected. -/
theorem C10_witness :
    "t(x)" ∈ expectedCols
    ∧ ¬ ((mSheet.cols.map lowerStr).contains "t(x)" = true)
    ∧ prepare_sheet mSheet Axis.z = none :=
  ⟨by decide, by decide,
   (C10_radial_ts_unread mSheet Axis.z (fun _ => none) (fun _ => none)).2 "t(x)"
     (by decide) (by decide)⟩

/-! ### C5 — multi-sheet batch error isolation -/

/-- Normalized samples of the fault-producing fixture sheet. -/
def sampF : List Sample := [⟨0, 1, 0, 0⟩, ⟨1, 1, 0, 0⟩]

/-- Normalized samples of the fault-free fixture sheet. -/
def sampN : List Sample := [⟨0, 0, 0, 0⟩, ⟨1, 0, 0, 0⟩]

/-- A valid two-row sheet whose `x` channel exceeds every radial
threshold. -/
def shFaulty : RawSheet :=
  { cols := ["t(x)", "x", "t(y)", "y", "t(z)", "z"],
    rows := [⟨some (some 0), some 1, some (some 0), some 0, some (some 0), some 0⟩,
             ⟨some (some 1), some 1, some (some 1), some 0, some (some 1), some 0⟩] }

/-- A valid two-row all-zero sheet that triggers no fault. -/
def shNormal : RawSheet :=
  { cols := ["t(x)", "x", "t(y)", "y", "t(z)", "z"],
    rows := [⟨some (some 0), some 0, some (some 0), some 0, some (some 0), some 0⟩,
             ⟨some (some 1), some 0, some (some 1), some 0, some (some 1), some 0⟩] }

/-- A sheet missing the required `z` column. -/
def shInvalid : RawSheet := { cols := ["t(x)", "x", "t(y)", "y", "t(z)"], rows := [] }

theorem shFaulty_prep : prepare_sheet shFaulty Axis.z = some (sampF, 1) := by
  simp only [prepare_sheet, show schemaOk shFaulty = true from by decide, if_true]
  norm_num [shFaulty, sampF, sortByT, dropNullRow, parseRow, axialCells, radialVals,
    sampleRate, median, diffs]

theorem shNormal_prep : prepare_sheet shNormal Axis.z = some (sampN, 1) := by
  simp only [prepare_sheet, show schemaOk shNormal = true from by decide, if_true]
  norm_num [shNormal, sampN, sortByT, dropNullRow, parseRow, axialCells, radialVals,
    sampleRate, median, diffs]

theorem shInvalid_prep : prepare_sheet shInvalid Axis.z = none := by
  simp [prepare_sheet, show schemaOk shInvalid = false from by decide]

theorem capRows_sampF : capRows sampF 500 = sampF := by
  norm_num [capRows, sortByT, sampF]

theorem capRows_sampN : capRows sampN 500 = sampN := by
  norm_num [capRows, sortByT, sampN]

/-- The classifier fires on the faulty fixture row. -/
theorem diag_faulty_row : diag 1 0 0 = some "Radial High, Looseness" := by
  have h1 : (1 : ℝ) > 0.5 ∨ (0 : ℝ) > 0.5 := by norm_num
  have h2 : ¬ ((0 : ℝ) > 0.35) := by norm_num
  have h3 : |(1 : ℝ) - 0| > 0.2 := by
    rw [sub_zero, abs_one]
    norm_num
  have hiss : issuesOf (1 : ℝ) 0 0 = ["Radial High", "Looseness"] := by
    rw [issuesOf, if_pos h1, if_neg h2, if_pos h3]
    rfl
  rw [diag, hiss, if_neg (by decide)]
  rfl

theorem diagnose_sampF :
    diagnose_faults sampF 1 =
      [(0, "Radial High, Looseness"), (1, "Radial High, Looseness")] := by
  have hx : rollingMeanSq [1, 1] (winLen 1) = [1, 1] := by
    norm_num [rollingMeanSq, meanSq, windowAt, winLen, List.range_succ]
  have h0 : rollingMeanSq [0, 0] (winLen 1) = [0, 0] := by
    norm_num [rollingMeanSq, meanSq, windowAt, winLen, List.range_succ]
  have hrx : rollingRMS [1, 1] (winLen 1) = [1, 1] := by
    rw [rollingRMS, hx]
    simp
  have hr0 : rollingRMS [0, 0] (winLen 1) = [0, 0] := by
    rw [rollingRMS, h0]
    simp
  simp only [diagnose_faults, sampF, List.map_cons, List.map_nil]
  rw [hrx, hr0]
  simp only [zipDiag, diag_faulty_row]

theorem diagnose_sampN : diagnose_faults sampN 1 = [] := by
  have h0 : rollingMeanSq [0, 0] (winLen 1) = [0, 0] := by
    norm_num [rollingMeanSq, meanSq, windowAt, winLen, List.range_succ]
  have hr0 : rollingRMS [0, 0] (winLen 1) = [0, 0] := by
    rw [rollingRMS, h0]
    simp
  simp only [diagnose_faults, sampN, List.map_cons, List.map_nil]
  rw [hr0]
  simp only [zipDiag, diag_zero_eq_none]

/-- C5 counterexample: a workbook of 3 sheets — one missing a required
column, two valid — whose aggregate result is empty, not 2 entries: the
valid sheets produce no faults and are excluded by `if not faults.empty`. -/
theorem C5_counterexample :
    prepare_sheet shNormal Axis.z ≠ none
    ∧ prepare_sheet shInvalid Axis.z = none
    ∧ runBatch [("a", shNormal), ("b", shInvalid), ("c", shNormal)] 500 = [] := by
  have hfn : diagnose_faults (capRows sampN 500) 1 = [] := by
    rw [capRows_sampN, diagnose_sampN]
  refine ⟨by rw [shNormal_prep]; exact Option.some_ne_none _, shInvalid_prep, ?_⟩
  simp only [runBatch, shNormal_prep, shInvalid_prep, hfn, List.isEmpty_nil, if_true]

/-- C5 (amended): a sheet rejected by the schema check is skipped without
aborting the batch — removing it from the workbook leaves the aggregate
unchanged; and a workbook of 3 sheets with one missing-column sheet and two
valid sheets *that each produce at least one fault row* yields exactly 2
aggregate entries (a valid sheet with an empty fault list contributes no
entry). -/
theorem C5_batch_spec (pre post : List (String × RawSheet)) (nm : String)
    (s : RawSheet) (m : ℕ) (h : prepare_sheet s Axis.z = none) :
    runBatch (pre ++ (nm, s) :: post) m = runBatch (pre ++ post) m
    ∧ (runBatch [("a", shFaulty), ("b", shInvalid), ("c", shFaulty)] 500).length = 2 := by
  constructor
  · induction pre with
    | nil => simp only [List.nil_append, runBatch, h]
    | cons e pre ih =>
      simp only [List.cons_append, runBatch]
      rcases hp : prepare_sheet e.2 Axis.z with _ | ⟨dfu, sr⟩
      · exact ih
      · simp only []
        by_cases hf : (diagnose_faults (capRows dfu m) sr).isEmpty = true
        · simp only [hf, if_true]
          exact ih
        · simp only [hf, Bool.false_eq_true, if_false]
          exact congrArg (List.cons _) ih
  · have hff : diagnose_faults (capRows sampF 500) 1 =
        [(0, "Radial High, Looseness"), (1, "Radial High, Looseness")] := by
      rw [capRows_sampF, diagnose_sampF]
    simp only [runBatch, shFaulty_prep, shInvalid_prep, hff, List.isEmpty_cons,
      Bool.false_eq_true, if_false, List.length_cons, List.length_nil]

/-- Witness for C5: skipping the invalid fixture sheet leaves the batch
over the remaining sheets unchanged. -/
theorem C5_witness :
    prepare_sheet shInvalid Axis.z = none
    ∧ runBatch ([] ++ ("b", shInvalid) :: [("c", shFaulty)]) 500 =
        runBatch ([] ++ [("c", shFaulty)]) 500 :=
  ⟨shInvalid_prep, (C5_batch_spec [] [("c", shFaulty)] "b" shInvalid 500 shInvalid_prep).1⟩

/-! ### C9 — Spectral Analyzer (modelled from the spec) on a pure sinusoid -/

theorem meanR_sin4 : meanR [0, 1, 0, -1] = 0 := by
  norm_num [meanR]

theorem detrend_sin4 : detrend [0, 1, 0, -1] = [0, 1, 0, -1] := by
  rw [detrend, meanR_sin4]
  simp

/-- DC bin of the test signal: the samples sum to zero. -/
theorem dftBin_sin4_zero : dftBin [0, 1, 0, -1] 0 = 0 := by
  simp [dftBin, Finset.sum_range_succ]

theorem exp_term_n1 :
    Complex.exp (-(2 * Real.pi * Complex.I) * (1 : ℕ) * (1 : ℕ) / ((4 : ℕ) : ℂ)) =
      -Complex.I := by
  have e1 : (-(2 * (Real.pi : ℂ) * Complex.I) * (1 : ℕ) * (1 : ℕ) / ((4 : ℕ) : ℂ)) =
      ((-(Real.pi / 2) : ℝ) : ℂ) * Complex.I := by
    push_cast
    ring
  rw [e1, Complex.exp_mul_I, ← Complex.ofReal_cos, ← Complex.ofReal_sin]
  rw [Real.cos_neg, Real.cos_pi_div_two, Real.sin_neg, Real.sin_pi_div_two]
  simp

theorem cos_three_pi_div_two : Real.cos (3 * Real.pi / 2) = 0 := by
  rw [show (3 * Real.pi / 2 : ℝ) = Real.pi + Real.pi / 2 by ring, Real.cos_add]
  simp

theorem sin_three_pi_div_two : Real.sin (3 * Real.pi / 2) = -1 := by
  rw [show (3 * Real.pi / 2 : ℝ) = Real.pi + Real.pi / 2 by ring, Real.sin_add]
  simp

theorem exp_term_n3 :
    Complex.exp (-(2 * Real.pi * Complex.I) * (1 : ℕ) * (3 : ℕ) / ((4 : ℕ) : ℂ)) =
      Complex.I := by
  have e3 : (-(2 * (Real.pi : ℂ) * Complex.I) * (1 : ℕ) * (3 : ℕ) / ((4 : ℕ) : ℂ)) =
      ((-(3 * Real.pi / 2) : ℝ) : ℂ) * Complex.I := by
    push_cast
    ring
  rw [e3, Complex.exp_mul_I, ← Complex.ofReal_cos, ← Complex.ofReal_sin]
  rw [Real.cos_neg, cos_three_pi_div_two, Real.sin_neg, sin_three_pi_div_two]
  simp

/-- Fundamental bin of the test signal: the DFT concentrates at `k = 1`. -/
theorem dftBin_sin4_one : dftBin [0, 1, 0, -1] 1 = -2 * Complex.I := by
  rw [dftBin]
  simp only [List.length_cons, List.length_nil]
  rw [Finset.sum_range_succ, Finset.sum_range_succ, Finset.sum_range_succ,
    Finset.sum_range_succ, Finset.sum_range_zero]
  simp only [List.getD_cons_zero, List.getD_cons_succ]
  rw [show (0 + 1 + 1 + 1 + 1 : ℕ) = 4 from rfl, exp_term_n1, exp_term_n3]
  push_cast
  ring

theorem abs_neg_two_I : Complex.abs (-2 * Complex.I) = 2 := by
  rw [show (-2 * Complex.I : ℂ) = ((-2 : ℝ) : ℂ) * Complex.I by push_cast; ring]
  rw [map_mul, Complex.abs_ofReal, Complex.abs_I, mul_one]
  norm_num

/-- One-sided magnitude spectrum of the test signal. -/
theorem spectrumOf_sin4 : spectrumOf [0, 1, 0, -1] = [0, 1] := by
  rw [spectrumOf]
  simp only [List.length_cons, List.length_nil]
  rw [show ((0 + 1 + 1 + 1 + 1 : ℕ) + 1) / 2 = 2 from rfl]
  rw [show List.range 2 = [0, 1] from rfl]
  simp only [List.map_cons, List.map_nil, detrend_sin4]
  rw [dftBin_sin4_zero, dftBin_sin4_one, map_zero, abs_neg_two_I]
  norm_num [show (0 + 1 + 1 + 1 + 1 : ℕ) = 4 from rfl]

theorem argmaxIdx_sin4 : argmaxIdx [(0 : ℝ), 1] = 1 := by
  simp only [argmaxIdx, argmaxAux]
  rw [if_pos (by norm_num : (0 : ℝ) < 1)]

/-- The dominant peak of the test signal sits at 1 Hz with amplitude 1. -/
theorem spectralPeak_sin4 : spectralPeak [0, 1, 0, -1] 4 = (1, 1) := by
  rw [spectralPeak]
  simp only [spectrumOf_sin4, argmaxIdx_sin4, List.length_cons, List.length_nil]
  norm_num

theorem classify_sin4 : classify 1 1 60 = "Likely Unbalance" := by
  rw [classify]
  rw [if_pos (by rw [show (1 * 60 - 60 : ℝ) = 0 by norm_num, abs_zero]; norm_num)]

/-- Samples of the pure sinusoid `sin(2π·(RPM/60)·t)` at `RPM = 60`,
sampled at 4 Hz for 4 samples (`t = n/4`). -/
theorem sin4_samples :
    (List.range 4).map (fun n : ℕ => Real.sin (2 * Real.pi * ((60 : ℝ) / 60) * n / 4)) =
      [0, 1, 0, -1] := by
  rw [show List.range 4 = [0, 1, 2, 3] from rfl]
  simp only [List.map_cons, List.map_nil]
  rw [show (2 * Real.pi * ((60 : ℝ) / 60) * ((0 : ℕ) : ℝ) / 4 : ℝ) = 0 by norm_num,
    show (2 * Real.pi * ((60 : ℝ) / 60) * ((1 : ℕ) : ℝ) / 4 : ℝ) = Real.pi / 2 by
      norm_num; ring,
    show (2 * Real.pi * ((60 : ℝ) / 60) * ((2 : ℕ) : ℝ) / 4 : ℝ) = Real.pi by
      norm_num; ring,
    show (2 * Real.pi * ((60 : ℝ) / 60) * ((3 : ℕ) : ℝ) / 4 : ℝ) = 3 * Real.pi / 2 by
      norm_num; ring]
  rw [Real.sin_zero, Real.sin_pi_div_two, Real.sin_pi, sin_three_pi_div_two]

/-- C9: the one-sided spectrum keeps the first `⌈N/2⌉` bins; and a pure
sinusoid at `f0 = RPM/60` (here `RPM = 60`, 4 samples at 4 Hz) has its
dominant peak within one frequency-bin-width (`sr/N`) of `f0` and is
classified "Likely Unbalance" by the first-match-wins rules. -/
theorem C9_spectral_spec :
    (∀ ys : List ℝ, (spectrumOf ys).length = (ys.length + 1) / 2)
    ∧ (spectralDiag ((List.range 4).map
          (fun n : ℕ => Real.sin (2 * Real.pi * ((60 : ℝ) / 60) * n / 4))) 4 60).2
        = "Likely Unbalance"
    ∧ |(spectralDiag ((List.range 4).map
          (fun n : ℕ => Real.sin (2 * Real.pi * ((60 : ℝ) / 60) * n / 4))) 4 60).1
          - 60 / 60| < 4 / 4 := by
  refine ⟨fun ys => by simp [spectrumOf], ?_, ?_⟩
  · simp only [spectralDiag, sin4_samples, spectralPeak_sin4]
    exact classify_sin4
  · simp only [spectralDiag, sin4_samples, spectralPeak_sin4]
    norm_num

end MotorApp
